import Mathlib

/-!
Shallow embedding of the phase-based notification scheduler from
`src/timer.rs` (`PhaseType`, `Phase<T>`, `PhaseTimer<T>`), together with
theorems settling the specification claims about it.

Modelling notes:
* Rust `usize` minute values become `Nat`.
* `chrono::DateTime<Utc>` timestamps become `Int` (seconds); a
  `chrono::Duration` is the `Int` difference of two such timestamps, and
  `Duration::num_minutes` is truncating division by 60 (truncation towards
  zero, as in chrono).  The truncation direction is irrelevant after the
  `.max 0` clamp performed by `elapsed_minutes`.
* A Rust function that may `panic!` is embedded with the `Panics` result
  type below; the `panicked` constructor carries the panic message.
* Rust's stable `sort_by_key(|phase| phase.trigger_at_minute)` is embedded
  as `List.insertionSort phaseLE`, which is also a stable sort for the
  key order (an element is inserted *after* all equal keys).  Sortedness
  and stability (ties resolved by insertion order) are proved below, which
  pins this function down as *the* stable sort by the key.
-/

namespace Scripts

/-- Result of a Rust computation that may `panic!`.  `panicked msg` models
an aborting `panic!` with the given message; `ok` is a normal return. -/
inductive Panics (A : Type) where
  | ok (value : A)
  | panicked (msg : String)
deriving Repr, DecidableEq

/-- `src/timer.rs` `PhaseType`: defines the behavior of a timer phase. -/
inductive PhaseType where
  /-- Phase triggers once at the specified time -/
  | oneTime (triggered : Bool)
  /-- Phase triggers repeatedly with the given interval after the initial
  trigger.  `last_action_minute` is the last time when this phase
  triggered, measured in minutes from `PhaseTimer.start_time`.  If
  `delayed` is true, the phase won't trigger at the start time but waits
  for the first interval. -/
  | recurring (interval : Nat) (last_action_minute : Nat) (delayed : Bool)
deriving Repr, DecidableEq

/-- `src/timer.rs` `Phase<T>`: a phase in the timer system. -/
structure Phase (T : Type) where
  phase_type : PhaseType
  action : T
  trigger_at_minute : Nat
deriving Repr, DecidableEq

/-- `Phase::one_time`: create a one-time phase that triggers at the
specified time. -/
def Phase.one_time (trigger_time : Nat) (action : T) : Phase T :=
  { phase_type := .oneTime false
    action := action
    trigger_at_minute := trigger_time }

/-- `Phase::recurring`: create a recurring phase that triggers at the
specified time and then repeats.  Note that the source performs no
validation of `interval`: the constructor is total. -/
def Phase.recurring (trigger_time : Nat) (interval : Nat) (action : T) : Phase T :=
  { phase_type := .recurring interval 0 false
    action := action
    trigger_at_minute := trigger_time }

/-- `Phase::recurring_delayed`: create a delayed recurring phase that waits
for the first interval before triggering. -/
def Phase.recurring_delayed (trigger_time : Nat) (interval : Nat) (action : T) : Phase T :=
  { phase_type := .recurring interval 0 true
    action := action
    trigger_at_minute := trigger_time }

/-- The key order used by `PhaseTimer::new`'s
`phases.sort_by_key(|phase| phase.trigger_at_minute)`. -/
def phaseLE (a b : Phase T) : Prop :=
  a.trigger_at_minute ≤ b.trigger_at_minute

instance : DecidableRel (@phaseLE T) :=
  fun a b => inferInstanceAs (Decidable (a.trigger_at_minute ≤ b.trigger_at_minute))

instance : IsTotal (Phase T) phaseLE :=
  ⟨fun a b => Nat.le_total a.trigger_at_minute b.trigger_at_minute⟩

instance : IsTrans (Phase T) phaseLE :=
  ⟨fun _ _ _ h1 h2 => Nat.le_trans h1 h2⟩

/-- `src/timer.rs` `PhaseTimer<T>`: a generic timer that can manage
multiple successive phases with different behaviors.  The Rust
`phases: Peekable<IntoIter<Phase<T>>>` iterator of not-yet-promoted
phases is embedded as the list of its remaining elements. -/
structure PhaseTimer (T : Type) where
  original_phases : List (Phase T)
  phases : List (Phase T)
  current_phase : Phase T
  start_time : Int
  last_check_time : Option Int
deriving Repr, DecidableEq

/-- `PhaseTimer::new`: create a new phase timer with the given phases.
Sorts phases by trigger time (stable), keeps a copy for resets, and takes
the first sorted phase as the current one; panics when `phases` is
empty. -/
def PhaseTimer.new (phases : List (Phase T)) (now : Int) : Panics (PhaseTimer T) :=
  match List.insertionSort phaseLE phases with
  | [] => .panicked "Initialized Timer with no phases."
  | current_phase :: rest =>
      .ok { original_phases := current_phase :: rest
            phases := rest
            current_phase := current_phase
            start_time := now
            last_check_time := none }

/-- `PhaseTimer::reset`: reset the timer to the beginning. -/
def PhaseTimer.reset (t : PhaseTimer T) (now : Int) : Panics (PhaseTimer T) :=
  match t.original_phases with
  | [] => .panicked "Initialized Timer with no phases."
  | current_phase :: rest =>
      .ok { t with
            phases := rest
            current_phase := current_phase
            start_time := now
            last_check_time := none }

/-- `PhaseTimer::elapsed_minutes`: the current elapsed minutes since the
timer started.  The source clamps to `0` in case `now` is slightly before
`start_time` (`.num_minutes().max(0) as usize`). -/
def PhaseTimer.elapsed_minutes (t : PhaseTimer T) (now : Int) : Nat :=
  (max ((now - t.start_time).tdiv 60) 0).toNat

/-- Body of `PhaseTimer::should_trigger_current_phase`, acting on the
current phase: whether the phase should trigger at
`minutes_since_start`, together with the (possibly mutated) phase. -/
def Phase.should_trigger (phase : Phase T) (minutes_since_start : Nat) : Bool × Phase T :=
  match phase.phase_type with
  | .oneTime triggered =>
      if triggered = false ∧ minutes_since_start ≥ phase.trigger_at_minute then
        (true, { phase with phase_type := .oneTime true })
      else
        (false, phase)
  | .recurring interval last_action_minute delayed =>
      let next_trigger_minute :=
        if last_action_minute = 0 then
          if delayed then
            phase.trigger_at_minute + interval
          else
            phase.trigger_at_minute
        else
          last_action_minute + interval
      if minutes_since_start ≥ next_trigger_minute then
        (true, { phase with phase_type := .recurring interval next_trigger_minute delayed })
      else
        (false, phase)

/-- `PhaseTimer::should_trigger_current_phase`: check if the current phase
should trigger at the given time, mutating its firing state on fire. -/
def PhaseTimer.should_trigger_current_phase (t : PhaseTimer T) (minutes_since_start : Nat) :
    Bool × PhaseTimer T :=
  let r := t.current_phase.should_trigger minutes_since_start
  (r.1, { t with current_phase := r.2 })

/-- `PhaseTimer::check`: check if a phase should trigger right now; if so,
the respective action is returned.  Returns the output together with the
updated timer. -/
def PhaseTimer.check (t : PhaseTimer T) (now : Int) : Option T × PhaseTimer T :=
  let minutes_since_start := t.elapsed_minutes now
  let st := t.should_trigger_current_phase minutes_since_start
  let t1 := st.2
  if st.1 then
    (some t1.current_phase.action, t1)
  else
    match t1.phases with
    | next_phase :: rest =>
        if minutes_since_start ≥ next_phase.trigger_at_minute then
          (none, { t1 with current_phase := next_phase, phases := rest })
        else
          (none, t1)
    | [] => (none, t1)

/-- `PhaseTimer::check_with_sleep_detection`: like `check`, but if more
than 30 minutes have passed since the last check, the timer assumes the
machine went to sleep and automatically resets itself first. -/
def PhaseTimer.check_with_sleep_detection (t : PhaseTimer T) (now : Int) :
    Panics (Option T × PhaseTimer T) :=
  let step1 : Panics (PhaseTimer T) :=
    match t.last_check_time with
    | some last_check =>
        if now - last_check > 30 * 60 then t.reset now else .ok t
    | none => .ok t
  match step1 with
  | .panicked msg => .panicked msg
  | .ok t =>
      let t := { t with last_check_time := some now }
      .ok (t.check now)

/-- The cursor position of the timer inside `original_phases`: the index
of the phase the `current_phase` working copy was taken from.  The Rust
code keeps the not-yet-promoted suffix `phases`; the cursor is recovered
from the list lengths. -/
def PhaseTimer.cursor (t : PhaseTimer T) : Nat :=
  t.original_phases.length - t.phases.length - 1

/-- Run a sequence of `check` calls at the given timestamps, recording for
each call the pre-call cursor and the call's output. -/
def PhaseTimer.runChecks (t : PhaseTimer T) : List Int → List (Nat × Option T) × PhaseTimer T
  | [] => ([], t)
  | now :: rest =>
      let r := t.check now
      let rs := r.2.runChecks rest
      ((t.cursor, r.1) :: rs.1, rs.2)

/-- Two phases agree on their immutable definition (trigger minute, action,
kind, interval, delay) but may differ in mutable firing state
(`triggered` / `last_action_minute`). -/
def sameShape (p q : Phase T) : Prop :=
  p.action = q.action ∧ p.trigger_at_minute = q.trigger_at_minute ∧
  (match p.phase_type, q.phase_type with
   | .oneTime _, .oneTime _ => True
   | .recurring i _ d, .recurring i' _ d' => i = i' ∧ d = d'
   | _, _ => False)

/-- A phase whose mutable firing state is in its initial condition
(`triggered = false`, `last_action_minute = 0`). -/
def InitialFiringState (p : Phase T) : Prop :=
  match p.phase_type with
  | .oneTime triggered => triggered = false
  | .recurring _ last_action_minute _ => last_action_minute = 0

/-- Structural invariant of a reachable timer: the remaining `phases` are
the suffix of `original_phases` after the cursor, the cursor is in range,
and the working `current_phase` is a copy (up to firing state) of the
phase at the cursor. -/
def PhaseTimer.Inv (t : PhaseTimer T) : Prop :=
  t.phases.length < t.original_phases.length ∧
  t.phases = t.original_phases.drop (t.cursor + 1) ∧
  ∃ q, t.original_phases[t.cursor]? = some q ∧ sameShape t.current_phase q

/-! Concrete instances used by witnesses and counterexamples. -/

/-- The timer produced by `PhaseTimer::new` on `[Phase::one_time(90, 0)]`
at timestamp 0. -/
def oneTimeTimer : PhaseTimer Nat :=
  { original_phases := [Phase.one_time 90 0]
    phases := []
    current_phase := Phase.one_time 90 0
    start_time := 0
    last_check_time := none }

/-- The timer produced by `PhaseTimer::new` on `[Phase::recurring(10, 10, 1)]`
at timestamp 0. -/
def recurringTimer : PhaseTimer Nat :=
  { original_phases := [Phase.recurring 10 10 1]
    phases := []
    current_phase := Phase.recurring 10 10 1
    start_time := 0
    last_check_time := none }

/-- A timer whose current phase is `Phase::recurring(0, 7, 5)`
(a non-delayed recurring phase with trigger minute 0). -/
def recurringZeroTimer : PhaseTimer Nat :=
  { original_phases := [Phase.recurring 0 7 5]
    phases := []
    current_phase := Phase.recurring 0 7 5
    start_time := 0
    last_check_time := none }

/-- A timer started at timestamp 6000 (used to exercise a backward wall
clock jump: querying it at an earlier timestamp). -/
def lateStartTimer : PhaseTimer Nat :=
  { original_phases := [Phase.one_time 90 0]
    phases := []
    current_phase := Phase.one_time 90 0
    start_time := 6000
    last_check_time := none }

/-- The timer produced by `PhaseTimer::new` on
`[Phase::recurring(60, 30, 10), Phase::one_time(120, 11)]` at timestamp 0
(the priority/promotion scenario). -/
def twoPhaseTimer : PhaseTimer Nat :=
  { original_phases := [Phase.recurring 60 30 10, Phase.one_time 120 11]
    phases := [Phase.one_time 120 11]
    current_phase := Phase.recurring 60 30 10
    start_time := 0
    last_check_time := none }

/-! Helper lemmas. -/

theorem should_trigger_oneTime (p : Phase T) (m : Nat) (tr : Bool)
    (h : p.phase_type = .oneTime tr) :
    p.should_trigger m =
      if tr = false ∧ m ≥ p.trigger_at_minute then
        (true, { p with phase_type := .oneTime true })
      else
        (false, p) := by
  simp only [Phase.should_trigger, h]

theorem should_trigger_recurring (p : Phase T) (m : Nat) (i l : Nat) (d : Bool) (nd : Nat)
    (h : p.phase_type = .recurring i l d)
    (hnd : nd = if l = 0 then (if d then p.trigger_at_minute + i else p.trigger_at_minute)
                else l + i) :
    p.should_trigger m =
      if m ≥ nd then
        (true, { p with phase_type := PhaseType.recurring i nd d })
      else
        (false, p) := by
  subst hnd
  simp only [Phase.should_trigger, h]

theorem should_trigger_snd_of_not_fire (p : Phase T) (m : Nat)
    (h : (p.should_trigger m).1 = false) : (p.should_trigger m).2 = p := by
  obtain ⟨pt, pa, ptr⟩ := p
  cases pt <;> simp only [Phase.should_trigger] at h ⊢ <;> split_ifs at h ⊢ <;> simp_all

theorem should_trigger_action (p : Phase T) (m : Nat) :
    (p.should_trigger m).2.action = p.action := by
  obtain ⟨pt, pa, ptr⟩ := p
  cases pt <;> simp only [Phase.should_trigger] <;> split_ifs <;> rfl

theorem should_trigger_sameShape (p : Phase T) (m : Nat) :
    sameShape (p.should_trigger m).2 p := by
  obtain ⟨pt, pa, ptr⟩ := p
  cases pt <;> simp only [Phase.should_trigger, sameShape] <;> split_ifs <;> simp_all

theorem sameShape_trans (p q r : Phase T) (h1 : sameShape p q) (h2 : sameShape q r) :
    sameShape p r := by
  obtain ⟨pt, pa, ptr⟩ := p
  obtain ⟨qt, qa, qtr⟩ := q
  obtain ⟨rt, ra, rtr⟩ := r
  unfold sameShape at *
  cases pt <;> cases qt <;> cases rt <;> simp_all

theorem set_current_self (t : PhaseTimer T) :
    { t with current_phase := t.current_phase } = t := rfl

/-- Case analysis of `PhaseTimer::check`. -/
theorem check_cases (t : PhaseTimer T) (now : Int) (fired : Bool) (p' : Phase T)
    (h : t.current_phase.should_trigger (t.elapsed_minutes now) = (fired, p')) :
    (fired = true →
      t.check now = (some t.current_phase.action, { t with current_phase := p' })) ∧
    (fired = false →
      (t.phases = [] → t.check now = (none, t)) ∧
      (∀ next rest, t.phases = next :: rest →
        (t.elapsed_minutes now ≥ next.trigger_at_minute →
          t.check now = (none, { t with current_phase := next, phases := rest })) ∧
        (t.elapsed_minutes now < next.trigger_at_minute → t.check now = (none, t)))) := by
  constructor
  · intro hf
    subst hf
    have ha : p'.action = t.current_phase.action := by
      have := should_trigger_action t.current_phase (t.elapsed_minutes now)
      rw [h] at this
      exact this
    simp [PhaseTimer.check, PhaseTimer.should_trigger_current_phase, h, ha]
  · intro hf
    subst hf
    have hp' : p' = t.current_phase := by
      have := should_trigger_snd_of_not_fire t.current_phase (t.elapsed_minutes now)
        (by rw [h])
      rw [h] at this
      exact this
    subst hp'
    refine ⟨?_, ?_⟩
    · intro hnil
      obtain ⟨orig, phs, cur, st0, lc⟩ := t
      simp only at hnil
      subst hnil
      simp [PhaseTimer.check, PhaseTimer.should_trigger_current_phase, h]
    · intro next rest hcons
      obtain ⟨orig, phs, cur, st0, lc⟩ := t
      simp only at hcons
      subst hcons
      refine ⟨?_, ?_⟩
      · intro hge
        simp [PhaseTimer.check, PhaseTimer.should_trigger_current_phase, h, hge]
      · intro hlt
        simp [PhaseTimer.check, PhaseTimer.should_trigger_current_phase, h,
          Nat.not_le.mpr hlt]

theorem sameShape_refl (p : Phase T) : sameShape p p := by
  obtain ⟨pt, pa, ptr⟩ := p
  unfold sameShape
  cases pt <;> simp

/-- Outcome dichotomy of a single `check` call: either the current phase
fired (action returned, no promotion), or nothing fired and `none` is
returned. -/
theorem check_out (t : PhaseTimer T) (now : Int) :
    ((t.check now).1 = some t.current_phase.action ∧
      (t.check now).2.phases = t.phases ∧
      (t.current_phase.should_trigger (t.elapsed_minutes now)).1 = true ∧
      (t.check now).2.current_phase =
        (t.current_phase.should_trigger (t.elapsed_minutes now)).2 ∧
      (t.check now).2.original_phases = t.original_phases ∧
      (t.check now).2.start_time = t.start_time ∧
      (t.check now).2.last_check_time = t.last_check_time) ∨
    ((t.check now).1 = none ∧
      (t.current_phase.should_trigger (t.elapsed_minutes now)).1 = false ∧
      ((t.check now).2 = t ∨
        (t.phases = (t.check now).2.current_phase :: (t.check now).2.phases ∧
          (t.check now).2 = { t with
            current_phase := (t.check now).2.current_phase,
            phases := (t.check now).2.phases }))) := by
  rcases hst : t.current_phase.should_trigger (t.elapsed_minutes now) with ⟨fired, p'⟩
  have hc := check_cases t now fired p' hst
  cases fired
  · rcases hph : t.phases with _ | ⟨next, rest⟩
    · rw [(hc.2 rfl).1 hph]
      exact Or.inr ⟨rfl, by simp [hst], Or.inl rfl⟩
    · rcases Nat.lt_or_ge (t.elapsed_minutes now) next.trigger_at_minute with hlt | hge
      · rw [(((hc.2 rfl).2 next rest hph).2 hlt)]
        exact Or.inr ⟨rfl, by simp [hst], Or.inl rfl⟩
      · rw [(((hc.2 rfl).2 next rest hph).1 hge)]
        exact Or.inr ⟨rfl, by simp [hst], Or.inr ⟨rfl, rfl⟩⟩
  · rw [hc.1 rfl]
    exact ⟨rfl, rfl, by simp [hst], by simp [hst], rfl, rfl, rfl⟩ |> Or.inl

theorem check_original (t : PhaseTimer T) (now : Int) :
    (t.check now).2.original_phases = t.original_phases := by
  rcases check_out t now with h | ⟨-, -, h | ⟨-, h⟩⟩
  · exact h.2.2.2.2.1
  · rw [h]
  · rw [h]

theorem check_phases_length (t : PhaseTimer T) (now : Int) :
    (t.check now).2.phases.length ≤ t.phases.length := by
  rcases check_out t now with h | ⟨-, -, h | ⟨h, -⟩⟩
  · rw [h.2.1]
  · rw [h]
  · rw [h]
    simp

theorem cursor_le_of_phases_length (t t' : PhaseTimer T)
    (horig : t'.original_phases = t.original_phases)
    (hlen : t'.phases.length ≤ t.phases.length) : t.cursor ≤ t'.cursor := by
  unfold PhaseTimer.cursor
  rw [horig]
  omega

theorem check_cursor_mono (t : PhaseTimer T) (now : Int) :
    t.cursor ≤ (t.check now).2.cursor :=
  cursor_le_of_phases_length t (t.check now).2 (check_original t now)
    (check_phases_length t now)

/-- A single `check` call preserves the structural invariant. -/
theorem check_Inv (t : PhaseTimer T) (now : Int) (h : t.Inv) : (t.check now).2.Inv := by
  obtain ⟨hlen, hdrop, q, hq, hshape⟩ := h
  rcases check_out t now with hf | ⟨-, -, hid | ⟨hcons, heq⟩⟩
  · obtain ⟨-, hph, -, hcur, horig, -, -⟩ := hf
    have hcursor : (t.check now).2.cursor = t.cursor := by
      unfold PhaseTimer.cursor
      rw [horig, hph]
    refine ⟨?_, ?_, q, ?_, ?_⟩
    · rw [hph, horig]
      exact hlen
    · rw [hph, horig, hcursor]
      exact hdrop
    · rw [horig, hcursor]
      exact hq
    · rw [hcur]
      exact sameShape_trans _ _ _ (should_trigger_sameShape _ _) hshape
  · rw [hid]
    exact ⟨hlen, hdrop, q, hq, hshape⟩
  · -- promotion: the cursor advances by exactly one
    set t' := (t.check now).2 with ht'
    have horig : t'.original_phases = t.original_phases := check_original t now
    have hlen' : t.phases.length = t'.phases.length + 1 := by
      rw [hcons]
      simp
    have hcursor : t'.cursor = t.cursor + 1 := by
      unfold PhaseTimer.cursor
      rw [horig]
      omega
    have hdrop' : t'.phases = t.original_phases.drop (t.cursor + 2) := by
      have : t.original_phases.drop (t.cursor + 2) = (t.original_phases.drop (t.cursor + 1)).tail := by
        rw [List.tail_drop]
      rw [this, ← hdrop, hcons, List.tail_cons]
    have hget : t.original_phases[t.cursor + 1]? = some t'.current_phase := by
      have h0 : (t.original_phases.drop (t.cursor + 1))[0]? = t.original_phases[t.cursor + 1]? := by
        rw [List.getElem?_drop]
      rw [← h0, ← hdrop, hcons]
      simp
    refine ⟨?_, ?_, t'.current_phase, ?_, sameShape_refl _⟩
    · rw [horig]
      omega
    · rw [horig, hcursor]
      exact hdrop'
    · rw [horig, hcursor]
      exact hget

theorem runChecks_original (t : PhaseTimer T) (ns : List Int) :
    (t.runChecks ns).2.original_phases = t.original_phases := by
  induction ns generalizing t with
  | nil => rfl
  | cons now rest ih =>
      simp only [PhaseTimer.runChecks]
      rw [ih]
      exact check_original t now

theorem runChecks_Inv (t : PhaseTimer T) (ns : List Int) (h : t.Inv) :
    (t.runChecks ns).2.Inv := by
  induction ns generalizing t with
  | nil => exact h
  | cons now rest ih => exact ih _ (check_Inv t now h)

theorem runChecks_cursor_mono (t : PhaseTimer T) (ns : List Int) :
    t.cursor ≤ (t.runChecks ns).2.cursor := by
  induction ns generalizing t with
  | nil => exact Nat.le_refl _
  | cons now rest ih =>
      exact Nat.le_trans (check_cursor_mono t now) (ih (t.check now).2)

theorem runChecks_steps_cursor (t : PhaseTimer T) (ns : List Int) :
    ∀ s ∈ (t.runChecks ns).1, t.cursor ≤ s.1 := by
  induction ns generalizing t with
  | nil => intro s hs; cases hs
  | cons now rest ih =>
      intro s hs
      simp only [PhaseTimer.runChecks, List.mem_cons] at hs
      rcases hs with hs | hs
      · rw [hs]
      · exact Nat.le_trans (check_cursor_mono t now) (ih (t.check now).2 s hs)

/-- A step that returns an action returns the action of the phase at the
timer's cursor. -/
theorem check_some_action (t : PhaseTimer T) (now : Int) (a : T) (h : t.Inv)
    (hsome : (t.check now).1 = some a) :
    ∃ q, t.original_phases[t.cursor]? = some q ∧ q.action = a := by
  obtain ⟨-, -, q, hq, hshape⟩ := h
  rcases check_out t now with hf | ⟨hnone, -, -⟩
  · refine ⟨q, hq, ?_⟩
    rw [hf.1] at hsome
    obtain rfl : a = t.current_phase.action := by
      exact (Option.some.injEq _ _).mp hsome.symm
    exact hshape.1.symm
  · rw [hnone] at hsome
    cases hsome

theorem runChecks_steps_action (t : PhaseTimer T) (ns : List Int) (h : t.Inv) :
    ∀ s ∈ (t.runChecks ns).1, ∀ a, s.2 = some a →
      ∃ q, t.original_phases[s.1]? = some q ∧ q.action = a := by
  induction ns generalizing t with
  | nil => intro s hs; cases hs
  | cons now rest ih =>
      intro s hs a ha
      simp only [PhaseTimer.runChecks, List.mem_cons] at hs
      rcases hs with hs | hs
      · subst hs
        exact check_some_action t now a h ha
      · have := ih (t.check now).2 (check_Inv t now h) s hs a ha
        rw [check_original t now] at this
        exact this

theorem new_ok (ps : List (Phase T)) (now : Int) (c : Phase T) (rest : List (Phase T))
    (h : List.insertionSort phaseLE ps = c :: rest) :
    PhaseTimer.new ps now = .ok
      { original_phases := c :: rest, phases := rest, current_phase := c,
        start_time := now, last_check_time := none } := by
  unfold PhaseTimer.new
  rw [h]

theorem insertionSort_ne_nil (ps : List (Phase T)) (h : ps ≠ []) :
    ∃ c rest, List.insertionSort phaseLE ps = c :: rest := by
  rcases hs : List.insertionSort phaseLE ps with _ | ⟨c, rest⟩
  · exfalso
    apply h
    have hl := List.length_insertionSort (@phaseLE T) ps
    rw [hs] at hl
    exact List.eq_nil_of_length_eq_zero hl.symm
  · exact ⟨c, rest, rfl⟩

theorem new_ok_elim (ps : List (Phase T)) (now : Int) (t : PhaseTimer T)
    (h : PhaseTimer.new ps now = .ok t) :
    List.insertionSort phaseLE ps = t.current_phase :: t.phases ∧
    t.original_phases = t.current_phase :: t.phases ∧
    t.start_time = now ∧ t.last_check_time = none := by
  unfold PhaseTimer.new at h
  rcases hs : List.insertionSort phaseLE ps with _ | ⟨c, rest⟩ <;> rw [hs] at h
  · cases h
  · cases h
    exact ⟨rfl, rfl, rfl, rfl⟩

theorem cursor_head (c : Phase T) (rest : List (Phase T)) (st : Int) (lc : Option Int) :
    PhaseTimer.cursor
      { original_phases := c :: rest, phases := rest, current_phase := c,
        start_time := st, last_check_time := lc } = 0 := by
  unfold PhaseTimer.cursor
  simp

theorem Inv_head (c : Phase T) (rest : List (Phase T)) (st : Int) (lc : Option Int) :
    PhaseTimer.Inv
      { original_phases := c :: rest, phases := rest, current_phase := c,
        start_time := st, last_check_time := lc } := by
  refine ⟨by simp, ?_, c, ?_, sameShape_refl c⟩ <;> rw [cursor_head] <;> simp

theorem reset_ok (t : PhaseTimer T) (now : Int) (c : Phase T) (rest : List (Phase T))
    (h : t.original_phases = c :: rest) :
    t.reset now = .ok
      { original_phases := c :: rest, phases := rest, current_phase := c,
        start_time := now, last_check_time := none } := by
  obtain ⟨orig, phs, cur, st0, lc⟩ := t
  simp only at h
  subst h
  rfl

theorem sorted_sortPhases (ps : List (Phase T)) :
    List.Sorted phaseLE (List.insertionSort phaseLE ps) :=
  List.sorted_insertionSort phaseLE ps

/-- `orderedInsert` with the `≤`-by-key order inserts the new element after
every element with a strictly smaller key and before no element with an
equal key, so filtering any fixed key commutes with it. -/
theorem filter_orderedInsert_key (k : Nat) (b : Phase T) (s : List (Phase T)) :
    (s.orderedInsert phaseLE b).filter (fun p => p.trigger_at_minute == k) =
      if b.trigger_at_minute == k then
        b :: s.filter (fun p => p.trigger_at_minute == k)
      else
        s.filter (fun p => p.trigger_at_minute == k) := by
  induction s with
  | nil =>
      simp [List.orderedInsert, List.filter_cons]
  | cons y s ih =>
      by_cases hle : phaseLE b y
      · simp only [List.orderedInsert, if_pos hle]
        rcases hbk : (b.trigger_at_minute == k) <;> simp [List.filter_cons, hbk]
      · have hlt : y.trigger_at_minute < b.trigger_at_minute :=
          Nat.lt_of_not_le (fun hh => hle hh)
        simp only [List.orderedInsert, if_neg hle]
        rcases hbk : (b.trigger_at_minute == k) <;>
          rcases hyk : (y.trigger_at_minute == k) <;>
          simp_all [List.filter_cons, beq_iff_eq]

/-- The stable sort used by `PhaseTimer::new` preserves, for every key, the
subsequence of phases with that key: ties are resolved by insertion
order. -/
theorem filter_insertionSort_key (k : Nat) (ps : List (Phase T)) :
    (List.insertionSort phaseLE ps).filter (fun p => p.trigger_at_minute == k) =
      ps.filter (fun p => p.trigger_at_minute == k) := by
  induction ps with
  | nil => rfl
  | cons b ps ih =>
      simp only [List.insertionSort, filter_orderedInsert_key, List.filter_cons, ih]

/-- A timer whose pass over position `i` is finished: either the cursor
moved beyond `i`, or it sits at `i` with an already-triggered one-time
phase. -/
def SpentAt (i : Nat) (t : PhaseTimer T) : Prop :=
  i < t.cursor ∨ (t.cursor = i ∧ t.current_phase.phase_type = PhaseType.oneTime true)

theorem promote_cursor (t : PhaseTimer T) (now : Int) (hInv : t.Inv)
    (hcons : t.phases = (t.check now).2.current_phase :: (t.check now).2.phases) :
    (t.check now).2.cursor = t.cursor + 1 := by
  have horig := check_original t now
  have hlen : t.phases.length = (t.check now).2.phases.length + 1 := by
    rw [hcons]
    simp
  obtain ⟨hl, -, -⟩ := hInv
  unfold PhaseTimer.cursor
  rw [horig]
  omega

theorem spentAt_step (i : Nat) (t : PhaseTimer T) (now : Int) (hInv : t.Inv)
    (h : SpentAt i t) :
    SpentAt i (t.check now).2 ∧ ¬(t.cursor = i ∧ ((t.check now).1).isSome = true) := by
  rcases h with hlt | ⟨hcur, htr⟩
  · refine ⟨Or.inl (Nat.lt_of_lt_of_le hlt (check_cursor_mono t now)), ?_⟩
    rintro ⟨hc, -⟩
    omega
  · have hst : t.current_phase.should_trigger (t.elapsed_minutes now) =
        (false, t.current_phase) := by
      rw [should_trigger_oneTime t.current_phase (t.elapsed_minutes now) true htr]
      simp
    rcases check_out t now with hf | ⟨hnone, -, hcase⟩
    · have hT := hf.2.2.1
      rw [hst] at hT
      simp at hT
    · refine ⟨?_, ?_⟩
      · rcases hcase with hid | ⟨hcons, -⟩
        · rw [hid]
          exact Or.inr ⟨hcur, htr⟩
        · refine Or.inl ?_
          rw [promote_cursor t now hInv hcons]
          omega
      · rintro ⟨-, hsome⟩
        rw [hnone] at hsome
        simp at hsome

theorem spentAt_run (i : Nat) (t : PhaseTimer T) (ns : List Int) (hInv : t.Inv)
    (h : SpentAt i t) :
    ((t.runChecks ns).1.countP (fun s => s.1 == i && s.2.isSome)) = 0 := by
  induction ns generalizing t with
  | nil => rfl
  | cons now rest ih =>
      have hs := spentAt_step i t now hInv h
      simp only [PhaseTimer.runChecks, List.countP_cons]
      have hpred : ((t.cursor == i && ((t.check now).1).isSome)) = false := by
        by_cases hc : t.cursor = i
        · have hbs : ((t.check now).1).isSome = false := by
            rcases hbs : ((t.check now).1).isSome
            · rfl
            · exact absurd ⟨hc, hbs⟩ hs.2
          simp [hbs]
        · simp [hc]
      rw [ih (t.check now).2 (check_Inv t now hInv) hs.1]
      simp only [hpred]
      simp

theorem oneTime_atMostOnce (i : Nat) (t : PhaseTimer T) (ns : List Int) (q : Phase T)
    (b : Bool) (hInv : t.Inv) (hq : t.original_phases[i]? = some q)
    (hb : q.phase_type = PhaseType.oneTime b) :
    ((t.runChecks ns).1.countP (fun s => s.1 == i && s.2.isSome)) ≤ 1 := by
  induction ns generalizing t with
  | nil => simp [PhaseTimer.runChecks]
  | cons now rest ih =>
      simp only [PhaseTimer.runChecks, List.countP_cons]
      by_cases hfire : (t.cursor == i && ((t.check now).1).isSome) = true
      · have hcuri : t.cursor = i := by
          have := (Bool.and_eq_true _ _).mp hfire |>.1
          exact beq_iff_eq.mp this
        have hsome : ((t.check now).1).isSome = true :=
          ((Bool.and_eq_true _ _).mp hfire).2
        obtain ⟨hlen0, hdrop0, q', hq', hshape⟩ := hInv
        rw [hcuri] at hq'
        rw [hq] at hq'
        obtain rfl := Option.some.inj hq'
        have hcurT : ∃ tr, t.current_phase.phase_type = PhaseType.oneTime tr := by
          obtain ⟨-, -, hk⟩ := hshape
          rw [hb] at hk
          rcases hpt : t.current_phase.phase_type with tr' | ⟨ii, ll, dd⟩
          · exact ⟨tr', rfl⟩
          · rw [hpt] at hk
            cases hk
        rcases check_out t now with hf | ⟨hnone, -, -⟩
        · obtain ⟨-, hph, hstT, hcur', horig', -, -⟩ := hf
          obtain ⟨tr, htr⟩ := hcurT
          have hcur1 : (t.check now).2.current_phase.phase_type = PhaseType.oneTime true := by
            rw [should_trigger_oneTime t.current_phase (t.elapsed_minutes now) tr htr]
              at hstT hcur'
            split_ifs at hstT hcur' with hcond
            rw [hcur']
          have hcursame : (t.check now).2.cursor = i := by
            unfold PhaseTimer.cursor
            rw [check_original, hph, ← hcuri]
            rfl
          have hspent : SpentAt i (t.check now).2 := Or.inr ⟨hcursame, hcur1⟩
          have hInv' : t.Inv := ⟨hlen0, hdrop0, q, by rw [hcuri]; exact hq, hshape⟩
          have h0 := spentAt_run i (t.check now).2 rest
            (check_Inv t now hInv') hspent
          rw [h0, hfire]
          simp
        · rw [hnone] at hsome
          simp at hsome
      · have hfalse : (t.cursor == i && ((t.check now).1).isSome) = false := by
          revert hfire
          cases (t.cursor == i && ((t.check now).1).isSome)
          · intro _
            rfl
          · intro hh
            exact absurd rfl hh
        have hq2 : (t.check now).2.original_phases[i]? = some q := by
          rw [check_original]
          exact hq
        have hred := ih (t.check now).2 (check_Inv t now hInv) hq2
        rw [hfalse]
        simpa using hred

theorem check_none_of_not_fire (t : PhaseTimer T) (now : Int)
    (h : (t.current_phase.should_trigger (t.elapsed_minutes now)).1 = false) :
    (t.check now).1 = none := by
  rcases check_out t now with hf | ⟨hnone, -, -⟩
  · rw [hf.2.2.1] at h
    cases h
  · exact hnone

theorem Inv_of_head_shape (t : PhaseTimer T)
    (h : t.original_phases = t.current_phase :: t.phases) : t.Inv := by
  obtain ⟨orig, phs, cur, st0, lc⟩ := t
  simp only at h
  subst h
  exact Inv_head cur phs st0 lc

set_option linter.unnecessarySeqFocus false in
/-- `check` neither reads nor writes `last_check_time`. -/
theorem check_set_last (t : PhaseTimer T) (now : Int) (x : Option Int) :
    PhaseTimer.check { t with last_check_time := x } now =
      ((t.check now).1, { (t.check now).2 with last_check_time := x }) := by
  obtain ⟨orig, phs, cur, st0, lc⟩ := t
  rcases hst : cur.should_trigger ((max ((now - st0).tdiv 60) 0).toNat) with ⟨fired, p'⟩
  cases fired <;>
    rcases phs with _ | ⟨next, rest⟩ <;>
      simp [PhaseTimer.check, PhaseTimer.should_trigger_current_phase,
        PhaseTimer.elapsed_minutes, hst] <;>
      try split_ifs <;> rfl

/-! Sanity checks: the embedding reproduces the behavior scenarios of the
specification (§8) and of the source's test module. -/

/-- Scenario A: a single one-time phase at minute 90 yields nothing at 45,
its action at 90, and nothing at 95. -/
theorem scenarioA :
    (oneTimeTimer.runChecks [2700, 5400, 5700]).1.map Prod.snd =
      [none, some 0, none] := by decide

/-- Scenario C (priority/promotion): recurring (60, 30) before a one-time
at 120; the recurring phase still fires at minute 120, promotion happens
on the following non-firing tick, and the one-time phase fires after. -/
theorem scenarioC :
    (twoPhaseTimer.runChecks [3600, 5400, 7200, 7500, 7800]).1.map Prod.snd =
      [some 10, some 10, some 10, none, some 11] := by decide

/-! Claim theorems. -/

/-- C1: a single `check()` call first evaluates only the current phase: if
it fires, its firing state is mutated, `some` of the current phase's
action is returned immediately, and no promotion happens on that call; if
it does not fire and the next phase in definition order exists with
`elapsed ≥ next.trigger_at_minute`, the cursor advances by one to that
next phase (its firing state untouched) and the call returns `none`;
otherwise the call returns `none` with no state change. -/
theorem C1_check_single_evaluation (t : PhaseTimer T) (now : Int) (fired : Bool)
    (p' : Phase T)
    (h : t.current_phase.should_trigger (t.elapsed_minutes now) = (fired, p')) :
    (fired = true →
      t.check now = (some t.current_phase.action, { t with current_phase := p' })) ∧
    (fired = false →
      (t.phases = [] → t.check now = (none, t)) ∧
      (∀ next rest, t.phases = next :: rest →
        (t.elapsed_minutes now ≥ next.trigger_at_minute →
          t.check now = (none, { t with current_phase := next, phases := rest })) ∧
        (t.elapsed_minutes now < next.trigger_at_minute → t.check now = (none, t)))) :=
  check_cases t now fired p' h

/-- Witness for C1 at a concrete input: the one-time phase of
`oneTimeTimer` fires at minute 90 (timestamp 5400) and no promotion
happens. -/
theorem C1_witness :
    oneTimeTimer.check 5400 =
      (some 0, { oneTimeTimer with
        current_phase := { phase_type := PhaseType.oneTime true, action := 0,
                           trigger_at_minute := 90 } }) :=
  (C1_check_single_evaluation oneTimeTimer 5400 true
    { phase_type := PhaseType.oneTime true, action := 0, trigger_at_minute := 90 }
    (by decide)).1 rfl

/-- C2 (amended): for a non-delayed recurring current phase with interval
`interval` and last action minute `last`, a `check()` at elapsed minutes
`e` fires iff `e ≥ nextDue` where `nextDue = trigger_at_minute` if
`last = 0` and `last + interval` otherwise; on fire `last_action_minute`
is set to `nextDue` (never to `e`), so a non-first fire advances it by
exactly `interval`.  A fired call performs no promotion, and each call
returns at most one action; several missed intervals are caught up one
interval per call on subsequent calls (the earliest pending occurrence
first), not in a single call and not to the most-recently-due
occurrence. -/
theorem C2_recurring_fire_rule (t : PhaseTimer T) (now : Int) (interval last : Nat)
    (h : t.current_phase.phase_type = PhaseType.recurring interval last false) :
    ((t.check now).1 = some t.current_phase.action ↔
      t.elapsed_minutes now ≥
        (if last = 0 then t.current_phase.trigger_at_minute else last + interval)) ∧
    (t.elapsed_minutes now ≥
        (if last = 0 then t.current_phase.trigger_at_minute else last + interval) →
      (t.check now).2.current_phase = { t.current_phase with
        phase_type := PhaseType.recurring interval
          (if last = 0 then t.current_phase.trigger_at_minute else last + interval)
          false } ∧
      (t.check now).2.phases = t.phases) ∧
    (last ≠ 0 → ∀ a, (t.check now).1 = some a →
      (t.check now).2.current_phase.phase_type =
        PhaseType.recurring interval (last + interval) false) := by
  have hst := should_trigger_recurring t.current_phase (t.elapsed_minutes now)
    interval last false
    (if last = 0 then t.current_phase.trigger_at_minute else last + interval) h
    (by simp)
  by_cases hge : t.elapsed_minutes now ≥
      (if last = 0 then t.current_phase.trigger_at_minute else last + interval)
  · rw [if_pos hge] at hst
    have hc := (check_cases t now true _ hst).1 rfl
    rw [hc]
    refine ⟨by simp [hge], fun _ => ⟨rfl, rfl⟩, fun hlast _ _ => ?_⟩
    simp [if_neg hlast]
  · rw [if_neg hge] at hst
    have hnone := check_none_of_not_fire t now (by rw [hst])
    refine ⟨?_, fun hcontra => absurd hcontra hge, fun _ a ha => ?_⟩
    · rw [hnone]
      simp [hge]
    · rw [hnone] at ha
      cases ha

/-- Witness for C2 at a concrete input: the fresh recurring phase of
`recurringTimer` (trigger 10, interval 10) fires at minute 10
(timestamp 600). -/
theorem C2_witness :
    (recurringTimer.check 600).1 = some 1 :=
  (C2_recurring_fire_rule recurringTimer 600 10 0 (by decide)).1.mpr (by decide)

/-- Counterexample to C2 as stated: with the recurring phase
(trigger 10, interval 10) and occurrences due at minutes 10, 20, 30, 40,
a single call at elapsed minute 45 fires exactly once but records
`last_action_minute = 10` — the earliest pending occurrence, not the
most-recently-due occurrence 40 — and an immediately repeated call at the
same elapsed time fires again, which would be impossible had the first
call caught up to the most-recently-due occurrence. -/
theorem C2_counterexample :
    (recurringTimer.check 2700).1 = some 1 ∧
    (recurringTimer.check 2700).2.current_phase.phase_type =
      PhaseType.recurring 10 10 false ∧
    ((recurringTimer.check 2700).2.check 2700).1 = some 1 := by decide

/-- C3: a one-time current phase fires iff its `triggered` flag is false
and the elapsed minutes have reached its trigger minute, and firing sets
`triggered := true`; consequently, over every sequence of `check()` calls
from a freshly constructed scheduler, the one-time phase at any position
`i` of the definition order fires at most once. -/
theorem C3_oneTime_at_most_once (t : PhaseTimer T) (now : Int) (tr : Bool)
    (htr : t.current_phase.phase_type = PhaseType.oneTime tr)
    (ps : List (Phase T)) (now0 : Int) (t0 : PhaseTimer T)
    (h0 : PhaseTimer.new ps now0 = .ok t0)
    (i : Nat) (q : Phase T) (b : Bool)
    (hq : t0.original_phases[i]? = some q) (hb : q.phase_type = PhaseType.oneTime b)
    (ns : List Int) :
    ((t.check now).1 = some t.current_phase.action ↔
      (tr = false ∧ t.elapsed_minutes now ≥ t.current_phase.trigger_at_minute)) ∧
    ((t.check now).1 = some t.current_phase.action →
      (t.check now).2.current_phase =
        { t.current_phase with phase_type := PhaseType.oneTime true }) ∧
    ((t0.runChecks ns).1.countP (fun s => s.1 == i && s.2.isSome)) ≤ 1 := by
  have hInv0 : t0.Inv := Inv_of_head_shape t0 (new_ok_elim ps now0 t0 h0).2.1
  have hst := should_trigger_oneTime t.current_phase (t.elapsed_minutes now) tr htr
  by_cases hcond : tr = false ∧ t.elapsed_minutes now ≥ t.current_phase.trigger_at_minute
  · rw [if_pos hcond] at hst
    have hc := (check_cases t now true _ hst).1 rfl
    rw [hc]
    exact ⟨by simp [hcond], fun _ => rfl, oneTime_atMostOnce i t0 ns q b hInv0 hq hb⟩
  · rw [if_neg hcond] at hst
    have hnone := check_none_of_not_fire t now (by rw [hst])
    rw [hnone]
    refine ⟨by simp [hcond], fun hcontra => ?_, oneTime_atMostOnce i t0 ns q b hInv0 hq hb⟩
    cases hcontra

/-- Witness for C3 at a concrete input: the one-time timer checked at
minutes 90, 95 and 100 returns its action exactly once. -/
theorem C3_witness :
    ((oneTimeTimer.runChecks [5400, 5700, 6000]).1.countP
      (fun s => s.1 == 0 && s.2.isSome)) ≤ 1 :=
  (C3_oneTime_at_most_once oneTimeTimer 5400 false (by decide)
    [Phase.one_time 90 0] 0 oneTimeTimer (by decide)
    0 (Phase.one_time 90 0) false (by decide) (by decide)
    [5400, 5700, 6000]).2.2

/-- C4: after `reset()`, no matter which `check()` calls happened before,
the scheduler's state — and hence its entire observable behavior — is
identical to that of a freshly constructed scheduler with the same phase
definitions: the cursor returns to the first phase in definition order,
the working copies of the phases are taken afresh from the stored
definitions (so phases built by the public constructors are back to
`triggered = false` / `last_action_minute = 0`), elapsed minutes
immediately after the reset are 0, and `reset` is idempotent and callable
at any time. -/
theorem C4_reset_refinement (ps : List (Phase T)) (now0 now now2 : Int) (ns : List Int)
    (t0 : PhaseTimer T) (h0 : PhaseTimer.new ps now0 = .ok t0) :
    ∃ t' : PhaseTimer T,
      ((t0.runChecks ns).2).reset now = .ok t' ∧
      PhaseTimer.new ps now = .ok t' ∧
      t'.elapsed_minutes now = 0 ∧
      t'.reset now2 = .ok { t' with start_time := now2 } ∧
      ((∀ p ∈ ps, InitialFiringState p) →
        InitialFiringState t'.current_phase ∧ ∀ p ∈ t'.phases, InitialFiringState p) := by
  obtain ⟨hs, horig0, -, -⟩ := new_ok_elim ps now0 t0 h0
  have horig : ((t0.runChecks ns).2).original_phases =
      t0.current_phase :: t0.phases := by
    rw [runChecks_original]
    exact horig0
  refine ⟨_, reset_ok _ now _ _ horig, new_ok ps now _ _ hs, ?_, ?_, ?_⟩
  · simp [PhaseTimer.elapsed_minutes]
  · exact reset_ok _ now2 _ _ rfl
  · intro hinit
    have hmem : ∀ p ∈ t0.current_phase :: t0.phases, InitialFiringState p := by
      intro p hp
      apply hinit
      have : p ∈ List.insertionSort phaseLE ps := by
        rw [hs]
        exact hp
      exact (List.mem_insertionSort phaseLE).mp this
    exact ⟨hmem _ (List.mem_cons_self _ _), fun p hp => hmem p (List.mem_cons_of_mem _ hp)⟩

/-- Witness for C4 at a concrete input: after firing its one-time phase at
minute 90, resetting `oneTimeTimer` at timestamp 7000 yields exactly the
timer freshly constructed at 7000, with elapsed minutes 0. -/
theorem C4_witness :
    ∃ t' : PhaseTimer Nat,
      ((oneTimeTimer.runChecks [5400]).2).reset 7000 = .ok t' ∧
      PhaseTimer.new [Phase.one_time 90 0] 7000 = .ok t' ∧
      t'.elapsed_minutes 7000 = 0 ∧
      t'.reset 8000 = .ok { t' with start_time := 8000 } ∧
      ((∀ p ∈ [Phase.one_time 90 (0 : Nat)], InitialFiringState p) →
        InitialFiringState t'.current_phase ∧ ∀ p ∈ t'.phases, InitialFiringState p) :=
  C4_reset_refinement [Phase.one_time 90 0] 0 7000 8000 [5400] oneTimeTimer (by decide)

/-- C5: between resets the cursor into the sorted phase order never
decreases, the current phase is always (a working copy of) an element of
the stored definition order, and once the scheduler has been promoted
past position `i`, no later `check()` before the next reset ever fires at
position `i` again (in particular, it never again returns phase `i`'s
action). -/
theorem C5_monotonic_promotion (ps : List (Phase T)) (now0 : Int) (t0 : PhaseTimer T)
    (h0 : PhaseTimer.new ps now0 = .ok t0) (ns1 ns2 : List Int) :
    (∃ q, ((t0.runChecks ns1).2).original_phases[((t0.runChecks ns1).2).cursor]? = some q ∧
      q ∈ ((t0.runChecks ns1).2).original_phases ∧
      sameShape ((t0.runChecks ns1).2).current_phase q) ∧
    ((t0.runChecks ns1).2).cursor ≤ ((((t0.runChecks ns1).2).runChecks ns2).2).cursor ∧
    (∀ s ∈ (((t0.runChecks ns1).2).runChecks ns2).1,
      ((t0.runChecks ns1).2).cursor ≤ s.1) ∧
    (∀ s ∈ (((t0.runChecks ns1).2).runChecks ns2).1, ∀ a, s.2 = some a →
      ∃ q, t0.original_phases[s.1]? = some q ∧ q.action = a) ∧
    (∀ i, i < ((t0.runChecks ns1).2).cursor →
      ∀ s ∈ (((t0.runChecks ns1).2).runChecks ns2).1, ¬(s.1 = i ∧ s.2.isSome = true)) := by
  have hInv0 : t0.Inv := Inv_of_head_shape t0 (new_ok_elim ps now0 t0 h0).2.1
  have hInv1 : ((t0.runChecks ns1).2).Inv := runChecks_Inv t0 ns1 hInv0
  obtain ⟨-, -, q, hq, hshape⟩ := hInv1
  refine ⟨⟨q, hq, ?_, hshape⟩, runChecks_cursor_mono _ ns2, runChecks_steps_cursor _ ns2,
    ?_, ?_⟩
  · exact List.getElem?_mem hq
  · intro s hs a ha
    have := runChecks_steps_action ((t0.runChecks ns1).2) ns2
      (runChecks_Inv t0 ns1 hInv0) s hs a ha
    rwa [runChecks_original] at this
  · rintro i hi s hs ⟨hsi, -⟩
    have := runChecks_steps_cursor ((t0.runChecks ns1).2) ns2 s hs
    omega

/-- Witness for C5 at a concrete input: a two-phase scheduler run up to
minute 125 (past its promotion point), then checked again later. -/
theorem C5_witness :
    ∃ q, ((twoPhaseTimer.runChecks [3600, 7200, 7500]).2).original_phases[
        ((twoPhaseTimer.runChecks [3600, 7200, 7500]).2).cursor]? = some q ∧
      q ∈ ((twoPhaseTimer.runChecks [3600, 7200, 7500]).2).original_phases ∧
      sameShape ((twoPhaseTimer.runChecks [3600, 7200, 7500]).2).current_phase q :=
  (C5_monotonic_promotion [Phase.recurring 60 30 10, Phase.one_time 120 11] 0
    twoPhaseTimer (by decide) [3600, 7200, 7500] [7800]).1

/-- C6 (amended): construction with an empty phase list panics with the
message "Initialized Timer with no phases." (it does not return a
recoverable error value); for every non-empty input it succeeds, storing
the phases stably sorted ascending by `trigger_at_minute` (ties resolved
by insertion order, expressed by key-filter preservation), with the
current phase set to the first phase of that sorted order. -/
theorem C6_new_spec (ps : List (Phase T)) (now : Int) :
    (ps = [] → PhaseTimer.new ps now = .panicked "Initialized Timer with no phases.") ∧
    (ps ≠ [] → ∃ t, PhaseTimer.new ps now = .ok t ∧
      t.original_phases = List.insertionSort phaseLE ps ∧
      List.Sorted phaseLE t.original_phases ∧
      (∀ k, t.original_phases.filter (fun p => p.trigger_at_minute == k) =
        ps.filter (fun p => p.trigger_at_minute == k)) ∧
      t.original_phases = t.current_phase :: t.phases ∧
      t.start_time = now ∧ t.last_check_time = none) := by
  constructor
  · intro h
    subst h
    rfl
  · intro h
    obtain ⟨c, rest, hs⟩ := insertionSort_ne_nil ps h
    refine ⟨_, new_ok ps now c rest hs, by rw [hs], ?_, ?_, rfl, rfl, rfl⟩
    · have := sorted_sortPhases ps
      rw [hs] at this
      exact this
    · intro k
      have := filter_insertionSort_key k ps
      rw [hs] at this
      exact this

/-- Witness for C6 at a concrete input: two phases given in reverse order
are stored sorted with the earlier-triggering phase current. -/
theorem C6_witness :
    ∃ t : PhaseTimer Nat,
      PhaseTimer.new [Phase.one_time 90 0, Phase.recurring 30 10 1] 0 = .ok t ∧
      t.original_phases =
        List.insertionSort phaseLE [Phase.one_time 90 0, Phase.recurring 30 10 1] ∧
      List.Sorted phaseLE t.original_phases ∧
      (∀ k, t.original_phases.filter (fun p => p.trigger_at_minute == k) =
        [Phase.one_time 90 (0 : Nat), Phase.recurring 30 10 1].filter
          (fun p => p.trigger_at_minute == k)) ∧
      t.original_phases = t.current_phase :: t.phases ∧
      t.start_time = 0 ∧ t.last_check_time = none :=
  (C6_new_spec [Phase.one_time 90 0, Phase.recurring 30 10 1] 0).2 (by decide)

/-- Counterexample to C6 as stated: constructing a scheduler from the
empty phase list panics (the `panicked` embedding of Rust `panic!`); it
does not fail with a recoverable `EmptyScheduleError` value. -/
theorem C6_counterexample :
    PhaseTimer.new ([] : List (Phase Nat)) 0 =
      .panicked "Initialized Timer with no phases." := rfl

theorem phase_set_type_self (p : Phase T) (k : PhaseType) (h : p.phase_type = k) :
    { p with phase_type := k } = p := by
  obtain ⟨pt, pa, ptr⟩ := p
  simp only at h
  subst h
  rfl

/-- C7 (amended): `Phase::recurring` performs no validation of the
interval: for every trigger minute, every interval — including 0, the only
representable value of `intervalMinutes ≤ 0` in the unsigned type — and
every action, construction succeeds, yielding a non-delayed recurring
phase with `last_action_minute` initialized to 0.  An interval-0 phase is
not rejected at first evaluation either: it simply fires whenever the
elapsed minutes reach its trigger minute. -/
theorem C7_recurring_unvalidated (trigger interval : Nat) (a : T) :
    Phase.recurring trigger interval a =
      { phase_type := PhaseType.recurring interval 0 false, action := a,
        trigger_at_minute := trigger } ∧
    (∀ m : Nat, ((Phase.recurring trigger 0 a).should_trigger m).1 = true ↔ m ≥ trigger) := by
  refine ⟨rfl, fun m => ?_⟩
  simp only [Phase.recurring, Phase.should_trigger]
  split_ifs with hcond <;> simp_all

/-- Counterexample to C7 as stated: constructing a recurring phase with
interval 0 does not fail with an `InvalidInterval` error — the constructor
is total and returns a well-formed recurring phase with interval 0 and
`last_action_minute = 0`. -/
theorem C7_counterexample :
    Phase.recurring 5 0 (0 : Nat) =
      { phase_type := PhaseType.recurring 0 0 false, action := 0,
        trigger_at_minute := 5 } := rfl

/-- C8 (amended): `elapsed_minutes` clamps — the signed minute count is
passed through `.max(0)` before the cast to the unsigned type — so when
the wall clock moves backward (`now` at or before `start_time`) the
result is the well-defined clamped value 0, not a negative or undefined
value. -/
theorem C8_backward_clock_clamped (t : PhaseTimer T) (now : Int)
    (h : now ≤ t.start_time) : t.elapsed_minutes now = 0 := by
  unfold PhaseTimer.elapsed_minutes
  have h2 : 0 ≤ (-(now - t.start_time)).tdiv 60 :=
    Int.tdiv_nonneg (by omega) (by omega)
  have heq := Int.neg_tdiv (now - t.start_time) 60
  have h3 : (now - t.start_time).tdiv 60 ≤ 0 := by omega
  rw [max_eq_right h3]
  rfl

/-- Witness for C8's amended statement at a concrete input: a timer
started at timestamp 6000 queried at the earlier timestamp 2400 (a
backward clock jump of one hour) reports 0 elapsed minutes. -/
theorem C8_witness :
    (2400 : Int) ≤ lateStartTimer.start_time ∧
    lateStartTimer.elapsed_minutes 2400 = 0 :=
  ⟨by decide, C8_backward_clock_clamped lateStartTimer 2400 (by decide)⟩

/-- Counterexample to C8 as stated: on a backward clock jump the source
does not produce an unhandled negative-cast value — at the concrete
backward jump from start time 6000 to now 2400 the elapsed minutes are
the clamped value 0. -/
theorem C8_counterexample :
    lateStartTimer.elapsed_minutes 2400 = 0 := by decide

/-- C9: `check_with_sleep_detection` compares `now` with the recorded time
of the previous such call.  When the gap exceeds 30 minutes it fully
resets the scheduler (start time `now`, cursor back to the first stored
phase, working copies taken afresh from the stored phase definitions)
before running the normal `check`; with a gap of at most 30 minutes — or
on the first call, when no previous check time exists — it behaves
exactly like `check` (same output, same phase state), additionally
recording `now` as the last check time.  This automatic reset path is an
implementation behavior the specification does not mention: the
specification attributes all resets to explicit host `reset()` calls. -/
theorem C9_sleep_detection (t : PhaseTimer T) (now : Int) (c : Phase T)
    (rest : List (Phase T)) (horig : t.original_phases = c :: rest) :
    (∀ last, t.last_check_time = some last → now - last > 30 * 60 →
      t.check_with_sleep_detection now =
        .ok (PhaseTimer.check
          { original_phases := c :: rest, phases := rest, current_phase := c,
            start_time := now, last_check_time := some now } now)) ∧
    (∀ last, t.last_check_time = some last → ¬(now - last > 30 * 60) →
      t.check_with_sleep_detection now =
        .ok ((t.check now).1, { (t.check now).2 with last_check_time := some now })) ∧
    (t.last_check_time = none →
      t.check_with_sleep_detection now =
        .ok ((t.check now).1, { (t.check now).2 with last_check_time := some now })) := by
  refine ⟨?_, ?_, ?_⟩
  · intro last hlast hgap
    simp only [PhaseTimer.check_with_sleep_detection, hlast, if_pos hgap,
      reset_ok t now c rest horig]
  · intro last hlast hgap
    simp only [PhaseTimer.check_with_sleep_detection, hlast, if_neg hgap]
    rw [check_set_last]
  · intro hlast
    simp only [PhaseTimer.check_with_sleep_detection, hlast]
    rw [check_set_last]

/-- Witness for C9 at a concrete input: on its first
`check_with_sleep_detection` call (no previous check time) the recurring
timer behaves exactly like `check`, with the call time recorded. -/
theorem C9_witness :
    recurringTimer.check_with_sleep_detection 600 =
      .ok ((recurringTimer.check 600).1,
        { (recurringTimer.check 600).2 with last_check_time := some 600 }) :=
  (C9_sleep_detection recurringTimer 600 (Phase.recurring 10 10 1) []
    (by decide)).2.2 rfl

/-- C10: a timer whose current phase is a non-delayed recurring phase with
trigger minute 0 returns `some action` on every single `check()` call,
whatever the interval: firing computes `nextDue = 0` and stores
`last_action_minute := 0`, which is indistinguishable from the
never-fired sentinel 0, so the state never changes, `nextDue` stays 0
forever, and the interval is never applied. -/
theorem C10_zero_trigger_fires_always (t : PhaseTimer T) (interval : Nat)
    (htrig : t.current_phase.trigger_at_minute = 0)
    (hpt : t.current_phase.phase_type = PhaseType.recurring interval 0 false) :
    (∀ now : Int, t.check now = (some t.current_phase.action, t)) ∧
    (∀ ns : List Int, ((t.runChecks ns).1.map Prod.snd) =
      ns.map (fun _ => some t.current_phase.action) ∧ (t.runChecks ns).2 = t) := by
  have hstep : ∀ now : Int, t.check now = (some t.current_phase.action, t) := by
    intro now
    have hst := should_trigger_recurring t.current_phase (t.elapsed_minutes now)
      interval 0 false 0 hpt (by simp [htrig])
    rw [if_pos (Nat.zero_le _)] at hst
    have hc := (check_cases t now true _ hst).1 rfl
    rw [hc, phase_set_type_self t.current_phase (PhaseType.recurring interval 0 false) hpt,
      set_current_self]
  refine ⟨hstep, ?_⟩
  intro ns
  induction ns with
  | nil => exact ⟨rfl, rfl⟩
  | cons now rest ih =>
      simp only [PhaseTimer.runChecks, hstep now, List.map_cons]
      exact ⟨by rw [ih.1], ih.2⟩

/-- Witness for C10 at a concrete input: the trigger-0 recurring timer
(interval 7) fires on an arbitrary call and its state is unchanged. -/
theorem C10_witness :
    recurringZeroTimer.check 1234 = (some 5, recurringZeroTimer) :=
  (C10_zero_trigger_fires_always recurringZeroTimer 7 (by decide) (by decide)).1 1234

end Scripts
